/-
Verification development for the box-box order-fulfillment pipeline.

Shallow embedding of the Go sources:
  * panettiere service (worker availability state machine):
    `panettiereService` in the panettiere main package —
    fields `isSleeping`, `isWorkingOnDough`, `shouldSleep`, guarded by `mu`;
    operations `MakeDough` (admission check + work), the sleep-ticker
    callback in `startSleepTicker`, `checkAndSleep`, and the wake-up
    goroutine that clears `isSleeping`.
  * pacchetto gRPC client (`CreateGRPCClient`): retry interceptor
    configured with `retry.WithMax(cfg.Retries)`,
    `retry.WithCodes(codes.Unavailable, codes.ResourceExhausted)` and
    `retry.WithBackoff(retry.BackoffExponential(base))`.
  * pacchetto `RandomFunction`: seeds a ChaCha8 generator from the first
    8 little-endian bytes of `seed`, draws one Float64 and compares it
    with `probability`.
  * maestro consumer (`maestroHandlerV1.processNewOrder`):
    unmarshal → requestDough → sendToDeliveryQueue → Ack → smoke,
    returning early (without Ack) on any failure.
  * paddock-gateway broadcaster (`GoChannelOrderPubSubber` and
    `NATSOrderPubSubber`): subscriber map keyed by connection handle,
    `PubOrder`, `SubLiveOrders`, `UnsubLiveOrders`.
  * paddock-gateway ingress (`MainHandler.OrderNewPizza` and the
    `NewPizzaOrderRequest` dto with its `validate:` struct tags).
-/
import Mathlib

namespace BoxBox

/-! ## Worker availability state machine (panettiere service)

The lock-guarded mutable fields of `panettiereService`.  The `status`
string and timers carry no control-flow information, so the state is the
three booleans.  Each lock-held critical section of the Go code becomes
one atomic step on this state. -/

/-- The `mu`-guarded fields of `panettiereService`. -/
structure PanettiereState where
  isSleeping : Bool
  isWorkingOnDough : Bool
  shouldSleep : Bool
deriving DecidableEq, Repr

/-- The admission check at the top of `panettiereService.MakeDough`:
under `mu` it inspects `isSleeping`; if sleeping it returns a
`ResourceExhausted` error with no state change (`none`), otherwise it
sets `isWorkingOnDough := true` and proceeds. -/
def makeDoughAdmission (s : PanettiereState) : Option PanettiereState :=
  if s.isSleeping then none
  else some { s with isWorkingOnDough := true }

/-- `panettiereService.checkAndSleep`: if a sleep is due and the worker
is neither working nor already sleeping, enter the sleeping state and
clear the flag; otherwise do nothing. -/
def checkAndSleep (s : PanettiereState) : PanettiereState :=
  if s.shouldSleep && !s.isWorkingOnDough && !s.isSleeping then
    { s with isSleeping := true, shouldSleep := false }
  else s

/-- One event of the panettiere service, each a lock-held critical
section of the Go code. -/
inductive PEvent where
  /-- The sleep-ticker callback body in `startSleepTicker`. -/
  | tick
  /-- The `MakeDough` admission section (check `isSleeping`, then mark
  `isWorkingOnDough`); a rejected request leaves the state unchanged. -/
  | acquire
  /-- The deferred tail of `MakeDough`: clear `isWorkingOnDough`, then
  run `checkAndSleep`. -/
  | release
  /-- The wake-up goroutine clearing `isSleeping` after the sleep
  duration. -/
  | wake
deriving DecidableEq, Repr

/-- Transition function of the panettiere service. -/
def pStep (e : PEvent) (s : PanettiereState) : PanettiereState :=
  match e with
  | .tick =>
      if !s.isWorkingOnDough && !s.isSleeping then
        { s with isSleeping := true }
      else if s.isWorkingOnDough then
        { s with shouldSleep := true }
      else s
  | .acquire => (makeDoughAdmission s).getD s
  | .release => checkAndSleep { s with isWorkingOnDough := false }
  | .wake => { s with isSleeping := false }

/-- Run a sequence of events from a state. -/
def pRun (es : List PEvent) (s : PanettiereState) : PanettiereState :=
  es.foldl (fun s e => pStep e s) s

/-! ## Break-extension decision (pacchetto.RandomFunction)

`RandomFunction` seeds a fresh `rand.NewChaCha8` generator from the
32-byte buffer whose first 8 bytes are the little-endian encoding of
`seed` (the rest zero), draws one `Float64` and returns whether it is
below `probability`.  The ChaCha8 stream itself lives in Go's standard
library, outside this repository, so it enters the model as an
uninterpreted function `chacha8` from the seed buffer to the first
64-bit output; everything the claims need holds for every such
function. -/

/-- Little-endian bytes of the 64-bit seed, padded to the 32-byte
ChaCha8 seed buffer (`binary.LittleEndian.PutUint64(seedBytes[0:8], seed)`
on a zeroed array). -/
def chacha8SeedBytes (seed : Nat) : List Nat :=
  ((List.range 8).map fun i => seed / 2 ^ (8 * i) % 2 ^ 8) ++ List.replicate 24 0

/-- Go's `rand.Float64`: take the top 53 bits of a 64-bit word and scale
into `[0, 1)` (`float64(r.Uint64()>>11) / (1 << 53)`), modelled over ℚ. -/
def float64OfUint64 (u : Nat) : ℚ :=
  ((u % 2 ^ 64) / 2 ^ 11 : ℕ) / 2 ^ 53

/-- `pacchetto.RandomFunction`, parametrised by the external ChaCha8
generator `chacha8` (seed buffer ↦ first `Uint64` output). -/
def RandomFunction (chacha8 : List Nat → Nat) (seed : Nat) (probability : ℚ) : Bool :=
  decide (float64OfUint64 (chacha8 (chacha8SeedBytes seed)) < probability)

/-! ## Downstream call client (pacchetto.CreateGRPCClient)

`CreateGRPCClient` installs the go-grpc-middleware retry interceptor
with `retry.WithMax(cfg.Retries)`,
`retry.WithCodes(codes.Unavailable, codes.ResourceExhausted)` and
`retry.WithBackoff(retry.BackoffExponential(base))`.  The interceptor
makes up to `max` attempts: a nil result returns immediately, a result
whose code is not in the configured code set returns immediately, and a
result in the code set is retried (after a backoff wait) while attempts
remain; with `max = 0` it invokes once with no retry logic. -/

/-- The gRPC status codes that matter to the client; `other` stands for
any code outside `{OK, Unavailable, ResourceExhausted}` (e.g. a
permanent `InvalidArgument` error). -/
inductive GrpcCode where
  | ok
  | unavailable
  | resourceExhausted
  | other
deriving DecidableEq, Repr

/-- The settings consumed by `CreateGRPCClient`. -/
structure GRPCClientSettings where
  retries : Nat
  exponentialBackoffBaseInMilliseconds : Nat
deriving Repr

/-- The code set passed to `retry.WithCodes` in `CreateGRPCClient`. -/
def retryCodes : List GrpcCode := [.unavailable, .resourceExhausted]

/-- Whether the retry interceptor considers a failure code retriable:
membership in the `retry.WithCodes` set. -/
def isRetriable (c : GrpcCode) : Bool := retryCodes.contains c

/-- `retry.BackoffExponential(base)`: the wait before attempt `n` is
`base * 2 ^ n`. -/
def backoffExponential (base n : Nat) : Nat := base * 2 ^ n

/-- The retry interceptor's attempt loop.  `results i` is the outcome
the downstream peer would give the `i`-th attempt (0-based); the result
is the code surfaced to the caller together with the number of attempts
performed.  `fuel` is the number of attempts still allowed; when it runs
out the last error (`results (attempt - 1)`) is surfaced. -/
def retryLoop (results : Nat → GrpcCode) : Nat → Nat → GrpcCode × Nat
  | attempt, 0 => (results (attempt - 1), attempt)
  | attempt, fuel + 1 =>
      let c := results attempt
      if c = .ok then (c, attempt + 1)
      else if isRetriable c then retryLoop results (attempt + 1) fuel
      else (c, attempt + 1)

/-- A unary call through the client built by `CreateGRPCClient`:
with `Retries = 0` the interceptor passes the call through once,
otherwise it runs the attempt loop with `Retries` total attempts. -/
def grpcClientCall (cfg : GRPCClientSettings) (results : Nat → GrpcCode) :
    GrpcCode × Nat :=
  if cfg.retries = 0 then (results 0, 1)
  else retryLoop results 0 cfg.retries

/-! ## Maestro batch consumer (maestroHandlerV1.processNewOrder)

`processNewOrder` handles one fetched JetStream message:
unmarshal the order (on failure: log, record the error and return),
`requestDough` against the panettiere (on failure: log and return),
`sendToDeliveryQueue` (on failure: return), `msg.Ack()` (on failure:
log and return), then `smoke`.  The outcomes of the effectful calls are
the environment; the function yields the ordered list of side effects
performed. -/

/-- Environment of one `processNewOrder` run: the outcome each
effectful call would have if reached.  `parseOk` is whether
`json.Unmarshal` succeeds, `doughResult` the final code of
`requestDough` (after the client's internal retries), `publishOk`
whether `sendToDeliveryQueue` succeeds, `ackOk` whether `msg.Ack`
succeeds. -/
structure ProcessEnv where
  parseOk : Bool
  doughResult : GrpcCode
  publishOk : Bool
  ackOk : Bool
deriving DecidableEq, Repr

/-- Observable side effects of `processNewOrder`, in program order. -/
inductive MEvent where
  | doughRequest
  | publishDelivery
  | ack
  | smoke
deriving DecidableEq, Repr

/-- `maestroHandlerV1.processNewOrder` as the ordered list of side
effects it performs under the given environment. -/
def processNewOrder (env : ProcessEnv) : List MEvent :=
  if env.parseOk then
    .doughRequest ::
      (if env.doughResult = .ok then
        .publishDelivery ::
          (if env.publishOk then
            .ack :: (if env.ackOk then [.smoke] else [])
          else [])
      else [])
  else []

/-! ## Live fan-out broadcaster (paddock-gateway)

`GoChannelOrderPubSubber` keeps `liveEventSubscribers`, a map from the
connection handle to that subscriber's delivery channel.
`SubLiveOrders` makes a fresh (empty) channel and stores it under the
handle; `PubOrder` sends the order on every registered channel and
returns nil; `UnsubLiveOrders` deletes the handle and returns nil.
`NATSOrderPubSubber.UnsubLiveOrders` first looks the handle up,
returning nil when absent, and otherwise stops the consumer, deletes
the entry and returns nil.

Handles are identifiers (`Nat`); a channel is the list of orders
delivered to it since creation; the map is an association list. -/

/-- A pizza order (maestro and paddock-gateway `Order` struct).
`orderedAt` is an opaque timestamp. -/
structure Order where
  size : String
  toppings : List String
  destination : String
  username : String
  orderedAt : Nat
  orderID : String
  status : String
deriving DecidableEq, Repr

/-- Lookup in a subscriber map represented as an association list
keyed by connection handle. -/
def lookupSubs {α : Type} (h : Nat) : List (Nat × α) → Option α
  | [] => none
  | (k, v) :: rest => if k = h then some v else lookupSubs h rest

/-- Removal of a handle from the subscriber map (Go `delete(m, key)`). -/
def removeSub {α : Type} (h : Nat) : List (Nat × α) → List (Nat × α)
  | [] => []
  | (k, v) :: rest =>
      if k = h then removeSub h rest else (k, v) :: removeSub h rest

/-- The broadcaster state: the subscriber map, each handle paired with
the orders delivered to its channel since it was created. -/
structure Broadcaster where
  subs : List (Nat × List Order)
deriving DecidableEq, Repr

/-- `GoChannelOrderPubSubber.PubOrder`: send `o` on every registered
subscriber's channel, return nil.  Yields the new state, the list of
channel sends performed, and whether an error was returned (never). -/
def pubOrder (b : Broadcaster) (o : Order) :
    Broadcaster × List (Nat × Order) × Bool :=
  (⟨b.subs.map fun p => (p.1, p.2 ++ [o])⟩, b.subs.map fun p => (p.1, o), false)

/-- `GoChannelOrderPubSubber.SubLiveOrders`: create a fresh channel and
store it in the map under `h` (a map assignment replaces any previous
entry for the same handle). -/
def subLiveOrders (b : Broadcaster) (h : Nat) : Broadcaster :=
  ⟨removeSub h b.subs ++ [(h, [])]⟩

/-- `GoChannelOrderPubSubber.UnsubLiveOrders`: delete the handle from
the map and return nil (`false` = no error). -/
def unsubLiveOrders (b : Broadcaster) (h : Nat) : Broadcaster × Bool :=
  (⟨removeSub h b.subs⟩, false)

/-- The orders delivered to subscriber `h`'s channel. -/
def received (b : Broadcaster) (h : Nat) : List Order :=
  (lookupSubs h b.subs).getD []

/-- Whether handle `h` is registered. -/
def registered (b : Broadcaster) (h : Nat) : Bool :=
  (lookupSubs h b.subs).isSome

/-- Publish a sequence of orders in order (state component only). -/
def pubAll (os : List Order) (b : Broadcaster) : Broadcaster :=
  os.foldl (fun b o => (pubOrder b o).1) b

/-! ### The JetStream-backed broadcaster (NATSOrderPubSubber)

The gateway's `main.go` wires `NewNATSOrderPubSubber(nc, "orders",
"ORDERS")`.  Its `PubOrder` persists the order in the JetStream stream
(`js.PublishMsg`), from which every running consumer's callback
delivers it onto that subscriber's channel.  `SubLiveOrders` creates a
consumer with `jetstream.ConsumerConfig{FilterSubject: subject + ".>",
AckPolicy: AckNonePolicy}`; the `DeliverPolicy` field is left at its
zero value, which in the NATS client is `DeliverAllPolicy`: the
consumer starts from the earliest message retained in the stream, so
the new subscriber's channel first receives the retained history and
then every subsequent publish.  `UnsubLiveOrders` looks the handle up,
returns nil if absent, else stops the consumer and deletes the
entry. -/

/-- State of `NATSOrderPubSubber` together with the stream it rides on:
the persisted `ORDERS` stream contents and the consumer (with the
orders delivered to its channel) per connection handle. -/
structure NatsBroadcaster where
  stream : List Order
  subs : List (Nat × List Order)
deriving DecidableEq, Repr

/-- `NATSOrderPubSubber.PubOrder`: persist the order in the stream; each
running consumer delivers it to its subscriber's channel. -/
def natsPubOrder (b : NatsBroadcaster) (o : Order) : NatsBroadcaster :=
  ⟨b.stream ++ [o], b.subs.map fun p => (p.1, p.2 ++ [o])⟩

/-- `NATSOrderPubSubber.SubLiveOrders`: create a consumer for `h`; with
the zero-value `DeliverPolicy` (= `DeliverAllPolicy`) it delivers the
retained stream first, so the fresh channel starts by receiving the
history. -/
def natsSubLiveOrders (b : NatsBroadcaster) (h : Nat) : NatsBroadcaster :=
  ⟨b.stream, removeSub h b.subs ++ [(h, b.stream)]⟩

/-- `NATSOrderPubSubber.UnsubLiveOrders`: look the handle up; if absent
log a warning and return nil, else stop the consumer, delete the entry
and return nil (`false` = no error). -/
def natsUnsubLiveOrders (b : NatsBroadcaster) (h : Nat) :
    NatsBroadcaster × Bool :=
  match lookupSubs h b.subs with
  | none => (b, false)
  | some _ => (⟨b.stream, removeSub h b.subs⟩, false)

/-- The orders delivered to NATS subscriber `h`'s channel. -/
def natsReceived (b : NatsBroadcaster) (h : Nat) : List Order :=
  (lookupSubs h b.subs).getD []

/-- Whether handle `h` has a consumer registered. -/
def natsRegistered (b : NatsBroadcaster) (h : Nat) : Bool :=
  (lookupSubs h b.subs).isSome

/-- Publish a sequence of orders through the NATS pub-subber. -/
def natsPubAll (os : List Order) (b : NatsBroadcaster) : NatsBroadcaster :=
  os.foldl natsPubOrder b

/-! ## Ingress (paddock-gateway MainHandler.OrderNewPizza)

`OrderNewPizza` binds the request body; on bind failure it returns
HTTP 400 `{"error": "invalid request"}`; otherwise it builds an `Order`
with a generated id, the current time and status `"pending"`, publishes
it via the pub-subber, and returns HTTP 200 with the id and timestamp.
No validator runs on the bound request (the echo instance registers no
`Validator` and the handler never calls `c.Validate`). -/

/-- The `NewPizzaOrderRequest` dto. -/
structure NewPizzaOrderRequest where
  size : String
  toppings : List String
  destination : String
  username : String
deriving DecidableEq, Repr

/-- The validation the dto's `validate:` struct tags declare:
`size` required and one of small/medium/large, every topping non-empty,
`destination` and `username` required. -/
def newPizzaOrderRequestValid (r : NewPizzaOrderRequest) : Bool :=
  (r.size = "small" || r.size = "medium" || r.size = "large") &&
    r.toppings.all (fun t => t ≠ "") &&
    r.destination ≠ "" && r.username ≠ ""

/-- Result of one ingress request: the HTTP status returned and the
orders published onto the queue. -/
structure IngressResult where
  status : Nat
  published : List Order
deriving DecidableEq, Repr

/-- `MainHandler.OrderNewPizza`: `bound` is the result of `c.Bind`
(`none` = bind error), `oid` the generated uuid, `now` the current
time. -/
def orderNewPizza (bound : Option NewPizzaOrderRequest) (oid : String)
    (now : Nat) : IngressResult :=
  match bound with
  | none => ⟨400, []⟩
  | some req =>
      ⟨200, [{ size := req.size, toppings := req.toppings,
               destination := req.destination, username := req.username,
               orderedAt := now, orderID := oid, status := "pending" }]⟩

/-! ## Helper lemmas -/

@[simp] theorem pRun_nil (s : PanettiereState) : pRun [] s = s := rfl

@[simp] theorem pRun_cons (e : PEvent) (es : List PEvent) (s : PanettiereState) :
    pRun (e :: es) s = pRun es (pStep e s) := rfl

theorem float64OfUint64_nonneg (u : Nat) : 0 ≤ float64OfUint64 u := by
  unfold float64OfUint64
  positivity

@[simp] theorem pubAll_nil (b : Broadcaster) : pubAll [] b = b := rfl

@[simp] theorem pubAll_cons (o : Order) (os : List Order) (b : Broadcaster) :
    pubAll (o :: os) b = pubAll os (pubOrder b o).1 := rfl

@[simp] theorem natsPubAll_nil (b : NatsBroadcaster) : natsPubAll [] b = b := rfl

@[simp] theorem natsPubAll_cons (o : Order) (os : List Order) (b : NatsBroadcaster) :
    natsPubAll (o :: os) b = natsPubAll os (natsPubOrder b o) := rfl

@[simp] theorem lookupSubs_nil {α : Type} (h : Nat) :
    lookupSubs h ([] : List (Nat × α)) = none := rfl

@[simp] theorem lookupSubs_cons {α : Type} (h k : Nat) (v : α) (rest : List (Nat × α)) :
    lookupSubs h ((k, v) :: rest) =
      if k = h then some v else lookupSubs h rest := rfl

@[simp] theorem removeSub_nil {α : Type} (h : Nat) :
    removeSub h ([] : List (Nat × α)) = [] := rfl

@[simp] theorem removeSub_cons {α : Type} (h k : Nat) (v : α) (rest : List (Nat × α)) :
    removeSub h ((k, v) :: rest) =
      if k = h then removeSub h rest else (k, v) :: removeSub h rest := rfl

/-- After removing handle `h`, looking `h` up finds nothing. -/
theorem lookupSubs_removeSub {α : Type} (h : Nat) (l : List (Nat × α)) :
    lookupSubs h (removeSub h l) = none := by
  induction l with
  | nil => rfl
  | cons p rest ih =>
      obtain ⟨k, v⟩ := p
      by_cases hk : k = h
      · simp [hk, ih]
      · simp [hk, ih]

/-- Looking up a handle absent from the left part of an append falls
through to the right part. -/
theorem lookupSubs_append {α : Type} (h : Nat) (l₁ l₂ : List (Nat × α))
    (hl : lookupSubs h l₁ = none) :
    lookupSubs h (l₁ ++ l₂) = lookupSubs h l₂ := by
  induction l₁ with
  | nil => rfl
  | cons p rest ih =>
      obtain ⟨k, v⟩ := p
      by_cases hk : k = h
      · simp [hk] at hl
      · simp [hk] at hl ⊢
        exact ih hl

/-- If a handle is absent, removing it is the identity. -/
theorem removeSub_of_lookupSubs_none {α : Type} (h : Nat) (l : List (Nat × α))
    (hl : lookupSubs h l = none) :
    removeSub h l = l := by
  induction l with
  | nil => rfl
  | cons p rest ih =>
      obtain ⟨k, v⟩ := p
      by_cases hk : k = h
      · simp [hk] at hl
      · simp [hk] at hl ⊢
        exact ih hl

/-- Removing a handle twice equals removing it once. -/
theorem removeSub_idem {α : Type} (h : Nat) (l : List (Nat × α)) :
    removeSub h (removeSub h l) = removeSub h l :=
  removeSub_of_lookupSubs_none h _ (lookupSubs_removeSub h l)

/-- A freshly registered subscriber's channel is empty. -/
theorem lookupSubs_subLiveOrders (b : Broadcaster) (h : Nat) :
    lookupSubs h (subLiveOrders b h).subs = some [] := by
  unfold subLiveOrders
  rw [lookupSubs_append h _ _ (lookupSubs_removeSub h b.subs)]
  simp

/-- `PubOrder` appends the order to each registered channel. -/
theorem lookupSubs_pubOrder (b : Broadcaster) (o : Order) (h : Nat) :
    lookupSubs h ((pubOrder b o).1).subs =
      (lookupSubs h b.subs).map (fun evs => evs ++ [o]) := by
  show lookupSubs h (b.subs.map fun p => (p.1, p.2 ++ [o])) = _
  induction b.subs with
  | nil => rfl
  | cons p rest ih =>
      obtain ⟨k, v⟩ := p
      by_cases hk : k = h
      · simp [hk]
      · simp [hk, ih]

/-- Publishing a sequence of orders appends them, in order, to a
registered subscriber's channel. -/
theorem lookupSubs_pubAll (h : Nat) (qs : List Order) :
    ∀ (b : Broadcaster) (evs : List Order),
      lookupSubs h b.subs = some evs →
      lookupSubs h (pubAll qs b).subs = some (evs ++ qs) := by
  induction qs with
  | nil => intro b evs hl; simpa using hl
  | cons q qs ih =>
      intro b evs hl
      rw [pubAll_cons]
      have step : lookupSubs h ((pubOrder b q).1).subs = some (evs ++ [q]) := by
        rw [lookupSubs_pubOrder, hl]; rfl
      simpa using ih _ _ step

/-- A freshly created NATS consumer's channel starts with the retained
stream (deliver-all policy). -/
theorem lookupSubs_natsSubLiveOrders (b : NatsBroadcaster) (h : Nat) :
    lookupSubs h (natsSubLiveOrders b h).subs = some b.stream := by
  unfold natsSubLiveOrders
  rw [lookupSubs_append h _ _ (lookupSubs_removeSub h b.subs)]
  simp

/-- `natsPubOrder` appends the order to each registered channel. -/
theorem lookupSubs_natsPubOrder (b : NatsBroadcaster) (o : Order) (h : Nat) :
    lookupSubs h (natsPubOrder b o).subs =
      (lookupSubs h b.subs).map (fun evs => evs ++ [o]) := by
  show lookupSubs h (b.subs.map fun p => (p.1, p.2 ++ [o])) = _
  induction b.subs with
  | nil => rfl
  | cons p rest ih =>
      obtain ⟨k, v⟩ := p
      by_cases hk : k = h
      · simp [hk]
      · simp [hk, ih]

/-- NATS version of `lookupSubs_pubAll`. -/
theorem lookupSubs_natsPubAll (h : Nat) (qs : List Order) :
    ∀ (b : NatsBroadcaster) (evs : List Order),
      lookupSubs h b.subs = some evs →
      lookupSubs h (natsPubAll qs b).subs = some (evs ++ qs) := by
  induction qs with
  | nil => intro b evs hl; simpa using hl
  | cons q qs ih =>
      intro b evs hl
      rw [natsPubAll_cons]
      have step : lookupSubs h (natsPubOrder b q).subs = some (evs ++ [q]) := by
        rw [lookupSubs_natsPubOrder, hl]; rfl
      simpa using ih _ _ step

/-- Publishing through the NATS pub-subber appends to the persisted
stream. -/
theorem natsPubAll_stream (ps : List Order) :
    ∀ b : NatsBroadcaster, (natsPubAll ps b).stream = b.stream ++ ps := by
  induction ps with
  | nil => intro b; simp
  | cons p ps ih =>
      intro b
      rw [natsPubAll_cons, ih]
      simp [natsPubOrder]

/-- While the worker is busy, no event other than the release path can
start a sleep, and the worker stays busy. -/
theorem pRun_no_release_stays_awake (es : List PEvent) :
    ∀ s : PanettiereState, s.isWorkingOnDough = true → s.isSleeping = false →
      (∀ e ∈ es, e ≠ PEvent.release) →
      (pRun es s).isWorkingOnDough = true ∧ (pRun es s).isSleeping = false := by
  induction es with
  | nil => intro s hb hs _; exact ⟨hb, hs⟩
  | cons e es ih =>
      intro s hb hs hnr
      have he : e ≠ PEvent.release := hnr e (List.mem_cons_self e es)
      have hnr' : ∀ e' ∈ es, e' ≠ PEvent.release := fun e' h' =>
        hnr e' (List.mem_cons_of_mem e h')
      rw [pRun_cons]
      have hstep : (pStep e s).isWorkingOnDough = true ∧
          (pStep e s).isSleeping = false := by
        cases e with
        | tick => simp [pStep, hb, hs]
        | acquire => simp [pStep, makeDoughAdmission, hb, hs]
        | release => exact absurd rfl he
        | wake => simp [pStep, hb]
      exact ih _ hstep.1 hstep.2 hnr'

/-- The retry loop on a peer that always answers `ResourceExhausted`
uses up all its attempts and then surfaces the last error. -/
theorem retryLoop_const_resourceExhausted (results : Nat → GrpcCode) :
    ∀ fuel attempt : Nat,
      (∀ i, i < attempt + fuel → results i = GrpcCode.resourceExhausted) →
      retryLoop results attempt fuel =
        (results (attempt + fuel - 1), attempt + fuel) := by
  intro fuel
  induction fuel with
  | zero => intro attempt _; simp [retryLoop]
  | succ fuel ih =>
      intro attempt hres
      have hcur : results attempt = GrpcCode.resourceExhausted :=
        hres attempt (by omega)
      have hres' : ∀ i, i < (attempt + 1) + fuel →
          results i = GrpcCode.resourceExhausted := fun i hi => hres i (by omega)
      have : retryLoop results attempt (fuel + 1) =
          retryLoop results (attempt + 1) fuel := by
        simp [retryLoop, hcur, isRetriable, retryCodes]
      rw [this, ih _ hres']
      have harith : attempt + 1 + fuel = attempt + (fuel + 1) := by omega
      rw [harith]

/-! ## Claim theorems -/

/-- Claim C1, counterexample: `CreateGRPCClient` configures the retry
interceptor with `retry.WithCodes(codes.Unavailable,
codes.ResourceExhausted)`, so a downstream call that fails with
`ResourceExhausted` IS retried by the client itself.  With `Retries = 3`
and a peer answering `ResourceExhausted` then `OK`, the client makes a
second attempt and returns success instead of surfacing the capacity
error. -/
theorem grpcClient_retries_capacity_exhausted :
    isRetriable GrpcCode.resourceExhausted = true ∧
    grpcClientCall ⟨3, 100⟩
        (fun i => if i = 0 then GrpcCode.resourceExhausted else GrpcCode.ok) =
      (GrpcCode.ok, 2) := by
  constructor
  · rfl
  · rfl

/-- Claim C1, amended: the client treats `ResourceExhausted` exactly
like `Unavailable` — both are in the retry-code set and are retried
with exponential backoff until the configured attempt budget
`cfg.Retries` is exhausted, after which the error is surfaced; codes
outside the set (permanent errors) are surfaced after a single
attempt. -/
theorem grpcClient_retry_policy (n base : Nat) (results results2 : Nat → GrpcCode)
    (hn : 1 ≤ n)
    (hres : ∀ i, i < n → results i = GrpcCode.resourceExhausted)
    (hres2 : results2 0 = GrpcCode.other) :
    isRetriable GrpcCode.resourceExhausted = true ∧
    isRetriable GrpcCode.unavailable = true ∧
    isRetriable GrpcCode.other = false ∧
    grpcClientCall ⟨n, base⟩ results = (GrpcCode.resourceExhausted, n) ∧
    grpcClientCall ⟨n, base⟩ results2 = (GrpcCode.other, 1) := by
  have hn0 : ¬ n = 0 := by omega
  refine ⟨rfl, rfl, rfl, ?_, ?_⟩
  · unfold grpcClientCall
    rw [if_neg hn0]
    rw [retryLoop_const_resourceExhausted results n 0 (by simpa using hres)]
    simp only [Nat.zero_add]
    rw [hres (n - 1) (by omega)]
  · obtain ⟨m, rfl⟩ : ∃ m, n = m + 1 := ⟨n - 1, by omega⟩
    unfold grpcClientCall
    rw [if_neg hn0]
    simp [retryLoop, hres2, isRetriable, retryCodes]

/-- Witness for `grpcClient_retry_policy` at `Retries = 2`. -/
theorem grpcClient_retry_policy_witness :
    isRetriable GrpcCode.resourceExhausted = true ∧
    isRetriable GrpcCode.unavailable = true ∧
    isRetriable GrpcCode.other = false ∧
    grpcClientCall ⟨2, 5⟩ (fun _ => GrpcCode.resourceExhausted) =
      (GrpcCode.resourceExhausted, 2) ∧
    grpcClientCall ⟨2, 5⟩ (fun _ => GrpcCode.other) = (GrpcCode.other, 1) :=
  grpcClient_retry_policy 2 5 (fun _ => GrpcCode.resourceExhausted)
    (fun _ => GrpcCode.other) (by omega) (fun i _ => rfl) rfl

/-- Claim C2: `processNewOrder` acknowledges the fetched message exactly
when the parse, the downstream dough request and the republish to the
delivery queue all succeeded (in particular a capacity-exhausted dough
request leaves the message un-acknowledged), and whenever an
acknowledgment happens it comes after both side effects in program
order. -/
theorem processNewOrder_ack_characterization (env : ProcessEnv) :
    (MEvent.ack ∈ processNewOrder env ↔
      env.parseOk = true ∧ env.doughResult = GrpcCode.ok ∧
        env.publishOk = true) ∧
    (MEvent.ack ∉ processNewOrder env ∨
      (processNewOrder env).take 3 =
        [MEvent.doughRequest, MEvent.publishDelivery, MEvent.ack]) := by
  obtain ⟨p, d, pub, a⟩ := env
  cases p <;> cases d <;> cases pub <;> cases a <;> decide

/-- Claim C3, counterexample: `MakeDough` only checks `isSleeping`; a
request arriving while the panettiere is already working
(`isWorkingOnDough = true`, the `Busy` state) is accepted, not
rejected. -/
theorem makeDough_accepts_while_busy :
    makeDoughAdmission ⟨false, true, false⟩ = some ⟨false, true, false⟩ ∧
    (makeDoughAdmission ⟨false, true, false⟩).isSome = true := by
  constructor
  · rfl
  · rfl

/-- Claim C3, amended: the `MakeDough` admission check rejects (with no
state change) exactly when the worker is sleeping (`OnBreak`); from
`Idle` — and also from `Busy` — the request is accepted and the worker
is marked as working. -/
theorem makeDoughAdmission_only_sleep_rejects (s : PanettiereState) :
    (makeDoughAdmission s).isSome = !s.isSleeping ∧
    (makeDoughAdmission s).all (fun t => t.isWorkingOnDough) = true := by
  obtain ⟨sl, w, sh⟩ := s
  cases sl <;> simp [makeDoughAdmission]

/-- Claim C4: if the sleep ticker fires while the panettiere is busy,
the step only records `shouldSleep`; the sleeping state is not entered
by the tick, nor by any later event other than the release path
(`checkAndSleep` run from `MakeDough`'s deferred block). -/
theorem busy_tick_defers_sleep (s : PanettiereState) (es : List PEvent)
    (hb : s.isWorkingOnDough = true) (hs : s.isSleeping = false)
    (hnr : ∀ e ∈ es, e ≠ PEvent.release) :
    (pStep PEvent.tick s).shouldSleep = true ∧
    (pStep PEvent.tick s).isSleeping = false ∧
    (pRun es (pStep PEvent.tick s)).isSleeping = false := by
  have h1 : pStep PEvent.tick s = { s with shouldSleep := true } := by
    simp [pStep, hb, hs]
  refine ⟨?_, ?_, ?_⟩
  · rw [h1]
  · rw [h1]; exact hs
  · exact (pRun_no_release_stays_awake es _ (by rw [h1]; exact hb)
      (by rw [h1]; exact hs) hnr).2

/-- Witness for `busy_tick_defers_sleep`: a busy worker, a tick, then
further tick/acquire/wake events. -/
theorem busy_tick_defers_sleep_witness :
    (pStep PEvent.tick ⟨false, true, false⟩).shouldSleep = true ∧
    (pStep PEvent.tick ⟨false, true, false⟩).isSleeping = false ∧
    (pRun [PEvent.tick, PEvent.acquire, PEvent.wake]
        (pStep PEvent.tick ⟨false, true, false⟩)).isSleeping = false :=
  busy_tick_defers_sleep ⟨false, true, false⟩
    [PEvent.tick, PEvent.acquire, PEvent.wake] rfl rfl (by decide)

/-- Claim C5, counterexample: on an unparseable payload
`processNewOrder` logs the error and returns immediately — the message
is NOT acknowledged (the run performs no side effect at all), so it
stays subject to redelivery. -/
theorem processNewOrder_unparseable_not_acked :
    MEvent.ack ∉ processNewOrder ⟨false, GrpcCode.ok, true, true⟩ ∧
    processNewOrder ⟨false, GrpcCode.ok, true, true⟩ = [] := by
  decide

/-- Claim C5, amended: a fetched message whose payload cannot be parsed
is logged and skipped without acknowledgment (and without any further
side effect), leaving it to queue redelivery. -/
theorem processNewOrder_unparseable_skipped (env : ProcessEnv)
    (h : env.parseOk = false) :
    processNewOrder env = [] := by
  simp [processNewOrder, h]

/-- Witness for `processNewOrder_unparseable_skipped`. -/
theorem processNewOrder_unparseable_skipped_witness :
    processNewOrder ⟨false, GrpcCode.other, false, false⟩ = [] :=
  processNewOrder_unparseable_skipped ⟨false, GrpcCode.other, false, false⟩ rfl

/-- Claim C6, counterexample: the pub-subber wired in the gateway's
`main.go` is `NATSOrderPubSubber`, whose `SubLiveOrders` creates its
JetStream consumer with the zero-value deliver policy
(`DeliverAllPolicy`).  A subscriber that registers after one order has
been published receives that retained order — history IS replayed. -/
theorem nats_subscriber_replays_history :
    natsReceived
        (natsSubLiveOrders
          (natsPubOrder ⟨[], []⟩
            ⟨"small", [], "Garage 16", "kimi", 0, "o1", "pending"⟩) 7) 7 =
      [⟨"small", [], "Garage 16", "kimi", 0, "o1", "pending"⟩] := rfl

/-- Claim C6, amended: under the in-process `GoChannelOrderPubSubber` a
subscriber registering after `ps` have been published receives exactly
the orders published afterwards (none of `ps`); the JetStream-backed
`NATSOrderPubSubber` used by the gateway instead replays the stream's
retained history to a late subscriber before the subsequent orders. -/
theorem subscriber_replay_semantics (b : Broadcaster) (nb : NatsBroadcaster)
    (h : Nat) (ps qs : List Order) :
    received (pubAll qs (subLiveOrders (pubAll ps b) h)) h = qs ∧
    natsReceived (natsPubAll qs (natsSubLiveOrders (natsPubAll ps nb) h)) h =
      nb.stream ++ ps ++ qs := by
  constructor
  · have h1 : lookupSubs h (subLiveOrders (pubAll ps b) h).subs = some [] :=
      lookupSubs_subLiveOrders _ h
    have h2 := lookupSubs_pubAll h qs _ _ h1
    unfold received
    rw [h2]
    rfl
  · have h1 : lookupSubs h (natsSubLiveOrders (natsPubAll ps nb) h).subs =
        some (natsPubAll ps nb).stream := lookupSubs_natsSubLiveOrders _ h
    rw [natsPubAll_stream ps nb] at h1
    have h2 := lookupSubs_natsPubAll h qs _ _ h1
    unfold natsReceived
    rw [h2]
    simp

/-- Claim C7: the ingress handler `OrderNewPizza` never runs the
declared validation (the echo instance registers no `Validator` and the
handler never calls `c.Validate`), so a request that violates the dto's
`validate:` tags — size outside small/medium/large, empty destination
and username — is accepted with HTTP 200 and published onto the
queue. -/
theorem orderNewPizza_skips_validation :
    newPizzaOrderRequestValid ⟨"gigantic", [], "", ""⟩ = false ∧
    (orderNewPizza (some ⟨"gigantic", [], "", ""⟩) "oid-1" 0).status = 200 ∧
    (orderNewPizza (some ⟨"gigantic", [], "", ""⟩) "oid-1" 0).published =
      [⟨"gigantic", [], "", "", 0, "oid-1", "pending"⟩] := by
  refine ⟨by decide, rfl, rfl⟩

/-- Claim C8: `UnsubLiveOrders` is idempotent on both broadcaster
implementations — a second unsubscribe of the same handle changes
nothing, unsubscribing always returns nil, and unsubscribing a handle
that is not registered is a no-op that returns nil. -/
theorem unsubscribe_idempotent (b : Broadcaster) (nb : NatsBroadcaster)
    (b2 : Broadcaster) (nb2 : NatsBroadcaster) (h : Nat)
    (hb2 : registered b2 h = false) (hnb2 : natsRegistered nb2 h = false) :
    unsubLiveOrders (unsubLiveOrders b h).1 h = unsubLiveOrders b h ∧
    (unsubLiveOrders b h).2 = false ∧
    natsUnsubLiveOrders (natsUnsubLiveOrders nb h).1 h =
      natsUnsubLiveOrders nb h ∧
    (natsUnsubLiveOrders nb h).2 = false ∧
    unsubLiveOrders b2 h = (b2, false) ∧
    natsUnsubLiveOrders nb2 h = (nb2, false) := by
  have hl2 : lookupSubs h b2.subs = none := by
    cases hl : lookupSubs h b2.subs with
    | none => rfl
    | some v => rw [registered, hl] at hb2; simp at hb2
  have hnl2 : lookupSubs h nb2.subs = none := by
    cases hl : lookupSubs h nb2.subs with
    | none => rfl
    | some v => rw [natsRegistered, hl] at hnb2; simp at hnb2
  refine ⟨?_, rfl, ?_, ?_, ?_, ?_⟩
  · unfold unsubLiveOrders
    rw [removeSub_idem]
  · cases hl : lookupSubs h nb.subs with
    | none => simp [natsUnsubLiveOrders, hl]
    | some v =>
        simp only [natsUnsubLiveOrders, hl, lookupSubs_removeSub]
  · cases hl : lookupSubs h nb.subs with
    | none => simp [natsUnsubLiveOrders, hl]
    | some v => simp [natsUnsubLiveOrders, hl]
  · unfold unsubLiveOrders
    rw [removeSub_of_lookupSubs_none h _ hl2]
  · unfold natsUnsubLiveOrders
    rw [hnl2]

/-- Witness for `unsubscribe_idempotent` with one registered subscriber
on each implementation and handle 1 absent from the others. -/
theorem unsubscribe_idempotent_witness :
    unsubLiveOrders (unsubLiveOrders ⟨[(1, [])]⟩ 1).1 1 =
      unsubLiveOrders ⟨[(1, [])]⟩ 1 ∧
    (unsubLiveOrders ⟨[(1, [])]⟩ 1).2 = false ∧
    natsUnsubLiveOrders (natsUnsubLiveOrders ⟨[], [(1, [])]⟩ 1).1 1 =
      natsUnsubLiveOrders ⟨[], [(1, [])]⟩ 1 ∧
    (natsUnsubLiveOrders ⟨[], [(1, [])]⟩ 1).2 = false ∧
    unsubLiveOrders ⟨[]⟩ 1 = (⟨[]⟩, false) ∧
    natsUnsubLiveOrders ⟨[], []⟩ 1 = (⟨[], []⟩, false) :=
  unsubscribe_idempotent ⟨[(1, [])]⟩ ⟨[], [(1, [])]⟩ ⟨[]⟩ ⟨[], []⟩ 1 rfl rfl

/-- Claim C9: `PubOrder` on a broadcaster with zero subscribers
performs no channel send (so it cannot block), leaves the subscriber
map unchanged and returns nil. -/
theorem publish_empty_no_subscribers (o : Order) :
    pubOrder ⟨[]⟩ o = (⟨[]⟩, [], false) := rfl

/-- Claim C10: `RandomFunction` is deterministic — it is a pure
function of the seed and the probability, each call seeding a fresh
ChaCha8 generator from the seed alone — and with probability 0 it
returns false, since the drawn value lies in `[0, 1)`. -/
theorem randomFunction_deterministic_and_zero (chacha8 : List Nat → Nat)
    (seed : Nat) (p : ℚ) :
    RandomFunction chacha8 seed p = RandomFunction chacha8 seed p ∧
    RandomFunction chacha8 seed 0 = false := by
  refine ⟨rfl, ?_⟩
  simp only [RandomFunction, decide_eq_false_iff_not, not_lt]
  exact float64OfUint64_nonneg _

end BoxBox
